import Mathlib

/-!
Verification of the yamldirs tree-to-filesystem materializer
(src/yamldirs/filemaker.py).

The development shallowly embeds the decoded tree value, the scalar
coercion `value2str`, the base/implicit walker (`FilemakerBase` /
`Filemaker`), the explicit-attributed walker (`FilemakerExplicit`), a
small filesystem model interpreting the emitted operation traces, and
the scoped sandbox `create_files`.

Both walkers are embedded as trace generators: they return the list of
back-end operations (`mkdir`, `pushd`, `popd`, `make_file`, metadata
application, warning prints) that the Python interpreter would issue,
or the exception it would raise.  A separate interpreter (`runFS`)
gives those operations their real-filesystem meaning on a directory
tree model, and a second interpreter (`runOpsCwd`) tracks the process
working directory together with the `_curdir` directory stack.
-/

namespace Yamldirs

mutual
/-- A decoded tree value, mirroring the Python runtime values the walker
can receive from the safe YAML loader: strings, integers (numbers),
booleans (kept separate, but classified as numbers where the code does,
because the Python `bool` type subclasses `int` and registers as
`numbers.Number`), exact calendar dates, date-times (a distinct runtime
type that subclasses `date`), `None`, sequences, and mappings.
Mappings are association lists in insertion order, as Python dicts
iterate. -/
inductive Value where
  | str : String → Value
  | int : Int → Value
  | bool : Bool → Value
  | date : Nat → Nat → Nat → Value
  | datetime : Nat → Nat → Nat → Nat → Nat → Nat → Value
  | null : Value
  | list : VList → Value
  | dict : VDict → Value
deriving DecidableEq, Repr

/-- A sequence of tree values. -/
inductive VList where
  | nil : VList
  | cons : Value → VList → VList
deriving DecidableEq, Repr

/-- A mapping, as an ordered association list of key-value pairs. -/
inductive VDict where
  | nil : VDict
  | cons : Value → Value → VDict → VDict
deriving DecidableEq, Repr
end

/-- The Python runtime type name of a value, as `type(val)` names it in
the UnknownType message. -/
def pyTypeName : Value → String
  | .str _ => "str"
  | .int _ => "int"
  | .bool _ => "bool"
  | .date _ _ _ => "datetime.date"
  | .datetime _ _ _ _ _ _ => "datetime.datetime"
  | .null => "NoneType"
  | .list _ => "list"
  | .dict _ => "dict"

/-- Left-pad a decimal string with zeros up to the given width. -/
def padZeros (width : Nat) (s : String) : String :=
  String.mk (List.replicate (width - s.length) '0') ++ s

/-- ISO-8601 calendar form YYYY-MM-DD, as `datetime.date.isoformat`
renders it. -/
def isoDate (y m d : Nat) : String :=
  padZeros 4 (toString y) ++ "-" ++ padZeros 2 (toString m) ++ "-" ++
    padZeros 2 (toString d)

/-- The text `str(val)` produces for a value, used when the code
interpolates values into warning messages.  Container rendering is
abstracted (the embedded code only interpolates scalars). -/
def pyStr : Value → String
  | .str s => s
  | .int n => toString n
  | .bool b => if b then "True" else "False"
  | .date y m d => isoDate y m d
  | .datetime y m d h mi s =>
      isoDate y m d ++ " " ++ padZeros 2 (toString h) ++ ":" ++
        padZeros 2 (toString mi) ++ ":" ++ padZeros 2 (toString s)
  | .null => "None"
  | .list _ => "<list>"
  | .dict _ => "<dict>"

/-- Errors the embedded code can signal.  `unknownType` and
`unknownStructure` both correspond to the Python `UnknownType`
exception: the first is raised by `value2str` and carries the offending
value and its runtime type name, the second is raised by the explicit
dialect for a mapping with neither a `file` nor a `directory` key.
`osError` models an uncaught operating-system level exception and
carries the Python exception class name. -/
inductive Err where
  | unknownType : Value → String → Err
  | unknownStructure : Err
  | osError : String → Err
deriving DecidableEq, Repr

/-- Scalar coercion, `FilemakerBase.value2str`.  Branch order follows
the source: `isinstance(val, basestring)` returns the string itself;
`isinstance(val, numbers.Number)` returns `str(val)` — this branch also
catches booleans, since the Python `bool` type subclasses `int`; the
check `type(val) == datetime.date` is an exact type test, so a
date-time value (whose type is a subclass of `date`, as the source
comment notes) does not match it and falls through; every remaining
value raises `UnknownType` carrying the value and its runtime type. -/
def value2str : Value → Except Err String
  | .str s => .ok s
  | .int n => .ok (toString n)
  | .bool b => .ok (if b then "True" else "False")
  | .date y m d => .ok (isoDate y m d)
  | v => .error (.unknownType v (pyTypeName v))

/-- The `isinstance(val, basestring)` test of the source. -/
def isBasestring : Value → Bool
  | .str _ => true
  | _ => false

/-- The `isinstance(val, numbers.Number)` test of the source: true for
integers and also for booleans, because the Python `bool` type
subclasses `int`. -/
def isNumber : Value → Bool
  | .int _ => true
  | .bool _ => true
  | _ => false

/-- The `type(val) == datetime.date` test of the source: exact calendar
dates only; date-time values are excluded by the exact type check. -/
def isExactDate : Value → Bool
  | .date _ _ _ => true
  | _ => false

/-- A back-end operation issued by a walker.  `mkdir`, `pushd`, `popd`
and `makeFile` are the overridable primitives of `FilemakerBase`;
`chmod`, `chownUser` and `chownGroup` record a successful metadata
application by `FilemakerExplicit`; `warn` records the warning printed
when a metadata application hits a `PermissionError`. -/
inductive Op where
  | mkdir : Value → Op
  | pushd : Value → Op
  | popd : Op
  | makeFile : Value → Value → Op
  | chmod : Value → Value → Op
  | chownUser : Value → Value → Op
  | chownGroup : Value → Value → Op
  | warn : String → Op
deriving DecidableEq, Repr

mutual
/-- The dispatcher `FilemakerBase._make_item`: a dict goes to
`make_dict_item`, a list to `make_list_item`, and any other value is
coerced with `value2str` and becomes a file of that name with empty
content. -/
def makeItem : Value → Except Err (List Op)
  | .dict d => makeDictItem d
  | .list l => makeListItem l
  | v => do
      let s ← value2str v
      pure [Op.makeFile (.str s) (.str "")]

/-- The loop `FilemakerBase.make_list_item`: each element of the list is
fed back to `_make_item` in order, in the current directory. -/
def makeListItem : VList → Except Err (List Op)
  | .nil => pure []
  | .cons v rest => do
      let ops ← makeItem v
      let more ← makeListItem rest
      pure (ops ++ more)

/-- The loop `FilemakerBase.make_dict_item`: for each key-value pair,
the key is coerced with `value2str`; if the value is a list, a dict, or
`None`, a directory named by the key is created and entered, the value
is recursed into when it is not `None`, and the directory is left
again; otherwise the value is coerced and a file is written. -/
def makeDictItem : VDict → Except Err (List Op)
  | .nil => pure []
  | .cons k v rest => do
      let ks ← value2str k
      let ops ←
        match v with
        | .list _ | .dict _ => do
            let inner ← makeItem v
            pure (Op.mkdir (.str ks) :: Op.pushd (.str ks) ::
              (inner ++ [Op.popd]))
        | .null =>
            pure [Op.mkdir (.str ks), Op.pushd (.str ks), Op.popd]
        | w => do
            let cs ← value2str w
            pure [Op.makeFile (.str ks) (.str cs)]
      let more ← makeDictItem rest
      pure (ops ++ more)
end

/-- The operation trace of a full `Filemaker(root, fdef)` construction:
`FilemakerBase.__init__` first calls `self.pushd(root)` — with no
matching `popd` anywhere — and then runs `self._make_item(fdef)`. -/
def filemakerOps (root : String) (fdef : Value) : Except Err (List Op) :=
  (makeItem fdef).map (fun ops => Op.pushd (.str root) :: ops)

/-- Whether an operation is a `pushd`. -/
def isPushd : Op → Bool
  | .pushd _ => true
  | _ => false

/-- Whether an operation is a `popd`. -/
def isPopd : Op → Bool
  | .popd => true
  | _ => false

/-- Number of `pushd` operations in a trace. -/
def countPushd (ops : List Op) : Nat := (ops.filter isPushd).length

/-- Number of `popd` operations in a trace. -/
def countPopd (ops : List Op) : Nat := (ops.filter isPopd).length

/-- Whether a path string is absolute, that is, begins with a slash. -/
def isAbsolute (s : String) : Bool :=
  match s.data with
  | [] => false
  | c :: _ => c = '/'

/-- The `os.path.abspath` resolution used by `pushd`: an absolute name
is taken as is, a relative name is joined onto the current working
directory. -/
def resolve (cwd : String) (n : Value) : String :=
  let s := pyStr n
  if isAbsolute s then s else cwd ++ "/" ++ s

/-- One step of the working-directory and `_curdir` stack semantics of
`Filemaker.pushd` and `Filemaker.popd`: `pushd` resolves the name
against the current working directory, saves the old working directory
on the stack (the Python list is used as a stack, appending and popping
at the same end; the head of this list is the top), and moves there;
`popd` pops the saved directory and moves back, failing like the Python
`list.pop` on an empty stack.  All other operations leave the state
unchanged. -/
def stepCwd (op : Op) (s : String × List String) : Option (String × List String) :=
  match op with
  | .pushd n => some (resolve s.1 n, s.1 :: s.2)
  | .popd =>
      match s.2 with
      | [] => none
      | top :: rest => some (top, rest)
  | _ => some s

/-- Run a trace through the working-directory and stack semantics. -/
def runOpsCwd : List Op → String × List String → Option (String × List String)
  | [], s => some s
  | op :: rest, s =>
      match stepCwd op s with
      | none => none
      | some s2 => runOpsCwd rest s2

/-- A filesystem entry: a file with content, or a directory with an
ordered list of entries. -/
inductive Entry where
  | file : Value → Value → Entry
  | dir : Value → List Entry → Entry

/-- The name of an entry. -/
def entryName : Entry → Value
  | .file n _ => n
  | .dir n _ => n

/-- A saved enclosing directory on the filesystem walk: its name and
the sibling entries before and after the entered child. -/
structure Frame where
  name : Value
  before : List Entry
  after : List Entry

/-- The filesystem model state: the entries of the current directory,
and the stack of enclosing directories entered via `pushd`. -/
structure FSState where
  current : List Entry
  stack : List Frame

/-- Split the first entry with the given name out of a listing. -/
def splitNamed (n : Value) : List Entry → Option (List Entry × Entry × List Entry)
  | [] => none
  | e :: rest =>
      if entryName e = n then some ([], e, rest)
      else
        match splitNamed n rest with
        | some (b, x, a) => some (e :: b, x, a)
        | none => none

/-- One filesystem step.  `mkdir` fails like `os.mkdir` when the name
exists; `pushd` enters an existing directory and fails like `os.chdir`
when the name is a file or absent; `popd` leaves the innermost entered
directory; `makeFile` creates or truncates like `open(name, "w")`,
failing when the name is a directory; metadata and warning operations
do not change the modelled tree. -/
def fsStep (op : Op) (fs : FSState) : Except Err FSState :=
  match op with
  | .mkdir n =>
      match splitNamed n fs.current with
      | some _ => .error (.osError "FileExistsError")
      | none => .ok ⟨fs.current ++ [.dir n []], fs.stack⟩
  | .pushd n =>
      match splitNamed n fs.current with
      | some (b, .dir _ inner, a) => .ok ⟨inner, ⟨n, b, a⟩ :: fs.stack⟩
      | some (_, .file _ _, _) => .error (.osError "NotADirectoryError")
      | none => .error (.osError "FileNotFoundError")
  | .popd =>
      match fs.stack with
      | [] => .error (.osError "IndexError")
      | f :: rest => .ok ⟨f.before ++ [.dir f.name fs.current] ++ f.after, rest⟩
  | .makeFile n c =>
      match splitNamed n fs.current with
      | some (b, .file _ _, a) => .ok ⟨b ++ [.file n c] ++ a, fs.stack⟩
      | some (_, .dir _ _, _) => .error (.osError "IsADirectoryError")
      | none => .ok ⟨fs.current ++ [.file n c], fs.stack⟩
  | _ => .ok fs

/-- Run a trace through the filesystem model. -/
def runFS : List Op → FSState → Except Err FSState
  | [], fs => .ok fs
  | op :: rest, fs => do
      let fs2 ← fsStep op fs
      runFS rest fs2

/-- Materialize a tree under the implicit-shorthand dialect
(`Filemaker`), rooted in an initially empty directory, and return the
resulting listing of that root. -/
def materializeImplicit (fdef : Value) : Except Err (List Entry) := do
  let ops ← makeItem fdef
  let fs ← runFS ops ⟨[], []⟩
  pure fs.current

/-- Look up the first binding of a string key in a mapping, as the
Python subscript on a dict with that key. -/
def lookupKey : VDict → String → Option Value
  | .nil, _ => none
  | .cons k v rest, key =>
      if k = Value.str key then some v else lookupKey rest key

/-- The membership test `key in dct` of the source. -/
def hasKey (d : VDict) (key : String) : Bool := (lookupKey d key).isSome

/-- The three metadata keywords `FilemakerExplicit.__init__` registers. -/
inductive MetaKey where
  | mode : MetaKey
  | user : MetaKey
  | group : MetaKey
deriving DecidableEq, Repr

/-- Outcome of one `os.chmod` or `shutil.chown` call, supplied by the
environment: success, a `PermissionError` (the only exception the
source catches), or any other raised exception, by class name. -/
inductive MetaOutcome where
  | success : MetaOutcome
  | permissionError : MetaOutcome
  | raises : String → MetaOutcome
deriving DecidableEq, Repr

/-- The ambient operating-system behaviour of the metadata calls: for a
keyword, a target name, and the metadata value, what the underlying
call does. -/
def MetaEnv : Type := MetaKey → Value → Value → MetaOutcome

/-- An environment in which metadata calls never raise anything other
than `PermissionError`: every failure is a permission failure. -/
def NonRaising (env : MetaEnv) : Prop :=
  ∀ k n v exc, env k n v ≠ MetaOutcome.raises exc

/-- The warning text `make_item_mode` prints on a `PermissionError`. -/
def modeWarning (mode name : Value) : String :=
  "Unable to set the mode " ++ pyStr mode ++ " to " ++ pyStr name ++ "."

/-- The warning text `make_item_user` prints on a `PermissionError`. -/
def userWarning (user name : Value) : String :=
  "Unable to set the user " ++ pyStr user ++ " to " ++ pyStr name ++ "."

/-- The warning text `make_item_group` prints on a `PermissionError`. -/
def groupWarning (grp name : Value) : String :=
  "Unable to set the group " ++ pyStr grp ++ " to " ++ pyStr name ++ "."

/-- The handler `FilemakerExplicit.make_item_mode`: try `os.chmod`; a
`PermissionError` is caught and turned into a printed warning, any
other exception propagates. -/
def make_item_mode (env : MetaEnv) (filename mode : Value) : Except Err (List Op) :=
  match env MetaKey.mode filename mode with
  | .success => .ok [Op.chmod filename mode]
  | .permissionError => .ok [Op.warn (modeWarning mode filename)]
  | .raises exc => .error (.osError exc)

/-- The handler `FilemakerExplicit.make_item_user`: try
`shutil.chown(user=...)`; a `PermissionError` is caught and turned into
a printed warning, any other exception propagates. -/
def make_item_user (env : MetaEnv) (filename user : Value) : Except Err (List Op) :=
  match env MetaKey.user filename user with
  | .success => .ok [Op.chownUser filename user]
  | .permissionError => .ok [Op.warn (userWarning user filename)]
  | .raises exc => .error (.osError exc)

/-- The handler `FilemakerExplicit.make_item_group`: try
`shutil.chown(group=...)`; a `PermissionError` is caught and turned
into a printed warning, any other exception propagates. -/
def make_item_group (env : MetaEnv) (filename grp : Value) : Except Err (List Op) :=
  match env MetaKey.group filename grp with
  | .success => .ok [Op.chownGroup filename grp]
  | .permissionError => .ok [Op.warn (groupWarning grp filename)]
  | .raises exc => .error (.osError exc)

mutual
/-- The dispatcher `_make_item` as inherited by `FilemakerExplicit`:
dynamic dispatch sends a dict to the overriding
`FilemakerExplicit.make_dict_item`, whose body is inlined here.  That
body first tests `if "directory" in dct or "file" in dct`, preferring
the `directory` branch (`if` before `elif`): the directory branch calls
`mkdir` on the raw `directory` value; the file branch writes the raw
`file` value with the `content` value, defaulting to the empty string;
a mapping with neither key raises `UnknownType`.  Afterwards the key
loop `exKeyLoop` runs over all keys of the node.  Lists and scalars are
handled by the inherited base methods. -/
def exMakeItem (env : MetaEnv) : Value → Except Err (List Op)
  | .dict d =>
      match lookupKey d "directory", lookupKey d "file" with
      | some current, _ => do
          let rest ← exKeyLoop env current d
          pure (Op.mkdir current :: rest)
      | none, some current => do
          let content := (lookupKey d "content").getD (.str "")
          let rest ← exKeyLoop env current d
          pure (Op.makeFile current content :: rest)
      | none, none => .error .unknownStructure
  | .list l => exMakeListItem env l
  | v => do
      let s ← value2str v
      pure [Op.makeFile (.str s) (.str "")]

/-- The inherited `make_list_item` loop under the explicit dialect. -/
def exMakeListItem (env : MetaEnv) : VList → Except Err (List Op)
  | .nil => pure []
  | .cons v rest => do
      let ops ← exMakeItem env v
      let more ← exMakeListItem env rest
      pure (ops ++ more)

/-- The key loop at the end of `FilemakerExplicit.make_dict_item`: for
every key of the node in order — including the already-consumed
discriminator and `content` keys, which match no branch — a `children`
key pushes into the just-created entry name, recurses into the children
value through `_make_item`, and pops back; a metadata keyword
dispatches to its registered handler with the current entry name and
the value under that key; any other key is silently skipped.  Since the
keys of a Python dict are unique, the value the source reads back with
`dct[key]` is the value of the pair being visited. -/
def exKeyLoop (env : MetaEnv) (current : Value) : VDict → Except Err (List Op)
  | .nil => pure []
  | .cons k v rest => do
      let ops ←
        if k = Value.str "children" then do
          let inner ← exMakeItem env v
          pure (Op.pushd current :: (inner ++ [Op.popd]))
        else if k = Value.str "mode" then
          make_item_mode env current v
        else if k = Value.str "user" then
          make_item_user env current v
        else if k = Value.str "group" then
          make_item_group env current v
        else
          pure []
      let more ← exKeyLoop env current rest
      pure (ops ++ more)
end

/-- Materialize a tree under the explicit-attributed dialect
(`FilemakerExplicit`), rooted in an initially empty directory. -/
def materializeExplicit (env : MetaEnv) (fdef : Value) : Except Err (List Entry) := do
  let ops ← exMakeItem env fdef
  let fs ← runFS ops ⟨[], []⟩
  pure fs.current

/-- Whether an operation is one of the creation primitives that shape
the resulting tree: `mkdir`, `pushd`, `popd`, or `makeFile`. -/
def isCreation : Op → Bool
  | .mkdir _ => true
  | .pushd _ => true
  | .popd => true
  | .makeFile _ _ => true
  | _ => false

/-- The creation operations of a trace, with metadata applications and
warnings dropped. -/
def creationOps (ops : List Op) : List Op := ops.filter isCreation

/-- Drop every binding whose key is the string `file` or `content` from
a node. -/
def eraseFileContent : VDict → VDict
  | .nil => .nil
  | .cons k v rest =>
      if k = Value.str "file" ∨ k = Value.str "content" then
        eraseFileContent rest
      else
        .cons k v (eraseFileContent rest)

/-- The state of the world the sandbox touches: the process working
directory, and the temporary root — `some` of its listing while it
exists on disk, `none` once removed. -/
structure World where
  cwd : String
  tmp : Option (List Entry)

/-- The observable result of one `create_files` scope: the final world,
the outcome propagated to the caller, and the root path yielded to the
scope body when the body was reached. -/
structure CFResult where
  world : World
  outcome : Except Err Unit
  yielded : Option String

/-- The context manager `create_files(filedef, cleanup=True)`.  It
records `cwd = os.getcwd()`, makes a fresh temporary directory, and in
a `try` block runs `Filemaker(tmpdir, filedef)`, changes into the
temporary root and yields it to the scope body; the `finally` block
unconditionally changes back to the recorded directory and, when
`cleanup` is set, removes the temporary tree (with
`ignore_errors=True`, so removal itself never raises).  The working
directory the failed materialization leaves behind and the partial tree
it leaves in the root are not determined by this model and enter as the
parameters `failCwd` and `partialEntries`; the `finally` block runs the
same way whatever they are.  A raised error from materialization or
from the scope body (`bodyExc`) propagates after the `finally` block
runs. -/
def create_files (initCwd tmpdir failCwd : String) (partialEntries : List Entry)
    (fdef : Value) (bodyExc : Option Err) (cleanup : Bool) : CFResult :=
  let tryStep : World × Except Err Unit × Option String :=
    match materializeImplicit fdef with
    | .error e => (⟨failCwd, some partialEntries⟩, .error e, none)
    | .ok entries =>
        match bodyExc with
        | some e => (⟨tmpdir, some entries⟩, .error e, some tmpdir)
        | none => (⟨tmpdir, some entries⟩, .ok (), some tmpdir)
  let afterChdir : World := ⟨initCwd, tryStep.1.tmp⟩
  let afterCleanup : World :=
    if cleanup then ⟨afterChdir.cwd, none⟩ else afterChdir
  ⟨afterCleanup, tryStep.2.1, tryStep.2.2⟩

/-- A trace is balanced when it has as many `pushd` as `popd`
operations and, run from any working directory and any directory
stack, restores exactly that state. -/
def BalancedOps (ops : List Op) : Prop :=
  countPushd ops = countPopd ops ∧ ∀ s, runOpsCwd ops s = some s

/-- The round-trip example mapping of the specification,
a maps to (b maps to hello, c maps to the sequence 1, 2). -/
def treeC1 : Value :=
  .dict (.cons (.str "a")
    (.dict (.cons (.str "b") (.str "hello")
      (.cons (.str "c") (.list (.cons (.int 1) (.cons (.int 2) .nil)))
        .nil)))
    .nil)

/-- A metadata environment where every metadata call succeeds. -/
def envAllSuccess : MetaEnv := fun _ _ _ => .success

/-- A metadata environment where every metadata call hits a
`PermissionError`. -/
def envAllPerm : MetaEnv := fun _ _ _ => .permissionError

/-- An explicit-dialect file node carrying a `children` key:
file f with content x and children (the sequence holding g). -/
def dC8 : VDict :=
  .cons (.str "file") (.str "f")
    (.cons (.str "content") (.str "x")
      (.cons (.str "children") (.list (.cons (.str "g") .nil)) .nil))

/-- The tree value wrapping `dC8`. -/
def nodeC8 : Value := .dict dC8

/-- An explicit-dialect file node carrying a `mode` key: file f with
mode 420 (octal 644). -/
def dC9 : VDict :=
  .cons (.str "file") (.str "f") (.cons (.str "mode") (.int 420) .nil)

/-- The tree value wrapping `dC9`. -/
def nodeC9 : Value := .dict dC9

/-- An explicit-dialect node carrying both discriminators: directory d
together with file f and content x. -/
def dC10 : VDict :=
  .cons (.str "directory") (.str "d")
    (.cons (.str "file") (.str "f")
      (.cons (.str "content") (.str "x") .nil))

/-! ## Monadic reduction helpers -/

theorem ok_bind {α β : Type} (a : α) (f : α → Except Err β) :
    (Except.ok a : Except Err α) >>= f = f a := rfl

theorem error_bind {α β : Type} (e : Err) (f : α → Except Err β) :
    (Except.error e : Except Err α) >>= f = Except.error e := rfl

theorem pure_eq_ok {α : Type} (a : α) : (pure a : Except Err α) = Except.ok a := rfl

/-! ## Directory-stack balance of the implicit walker -/

theorem runOpsCwd_append (a b : List Op) (s : String × List String) :
    runOpsCwd (a ++ b) s = (runOpsCwd a s).bind (runOpsCwd b) := by
  induction a generalizing s with
  | nil => simp [runOpsCwd]
  | cons op rest ih =>
      simp only [List.cons_append, runOpsCwd]
      cases h : stepCwd op s with
      | none => simp
      | some s2 => simp [ih]

theorem countPushd_append (a b : List Op) :
    countPushd (a ++ b) = countPushd a + countPushd b := by
  simp [countPushd, List.filter_append]

theorem countPopd_append (a b : List Op) :
    countPopd (a ++ b) = countPopd a + countPopd b := by
  simp [countPopd, List.filter_append]

theorem balanced_nil : BalancedOps [] := ⟨rfl, fun _ => rfl⟩

theorem balanced_append {a b : List Op} (ha : BalancedOps a) (hb : BalancedOps b) :
    BalancedOps (a ++ b) := by
  refine ⟨?_, ?_⟩
  · rw [countPushd_append, countPopd_append, ha.1, hb.1]
  · intro s
    rw [runOpsCwd_append, ha.2 s]
    exact hb.2 s

theorem balanced_single {op : Op} (h1 : isPushd op = false) (h2 : isPopd op = false) :
    BalancedOps [op] := by
  refine ⟨?_, ?_⟩
  · simp [countPushd, countPopd, List.filter, h1, h2]
  · intro s
    cases op <;> simp_all [isPushd, isPopd, runOpsCwd, stepCwd]

theorem balanced_wrap (n : Value) {inner : List Op} (h : BalancedOps inner) :
    BalancedOps (Op.mkdir n :: Op.pushd n :: (inner ++ [Op.popd])) := by
  refine ⟨?_, ?_⟩
  · have h1 := h.1
    unfold countPushd countPopd at h1 ⊢
    simp [List.filter_cons, List.filter_append, isPushd, isPopd]
    omega
  · rintro ⟨c, st⟩
    have hstep : runOpsCwd (Op.mkdir n :: Op.pushd n :: (inner ++ [Op.popd])) (c, st)
        = runOpsCwd (inner ++ [Op.popd]) (resolve c n, c :: st) := rfl
    rw [hstep, runOpsCwd_append, h.2 (resolve c n, c :: st)]
    rfl

mutual
theorem makeItem_balanced : ∀ (v : Value) (ops : List Op),
    makeItem v = .ok ops → BalancedOps ops := by
  intro v ops h
  cases v with
  | dict d =>
      exact makeDictItem_balanced d ops (by simpa [makeItem] using h)
  | list l =>
      exact makeListItem_balanced l ops (by simpa [makeItem] using h)
  | str s =>
      simp [makeItem, value2str] at h
      subst h
      exact balanced_single rfl rfl
  | int n =>
      simp [makeItem, value2str] at h
      subst h
      exact balanced_single rfl rfl
  | bool b =>
      simp [makeItem, value2str] at h
      subst h
      exact balanced_single rfl rfl
  | date y m d =>
      simp [makeItem, value2str] at h
      subst h
      exact balanced_single rfl rfl
  | datetime y m d hh mi ss =>
      simp [makeItem, value2str] at h
  | null =>
      simp [makeItem, value2str] at h

theorem makeListItem_balanced : ∀ (l : VList) (ops : List Op),
    makeListItem l = .ok ops → BalancedOps ops := by
  intro l ops h
  cases l with
  | nil =>
      simp [makeListItem, pure_eq_ok] at h
      subst h
      exact balanced_nil
  | cons v rest =>
      simp only [makeListItem] at h
      cases h1 : makeItem v with
      | error e => simp [h1, ok_bind, error_bind, pure_eq_ok] at h
      | ok ops1 =>
          cases h2 : makeListItem rest with
          | error e => simp [h1, h2, ok_bind, error_bind, pure_eq_ok] at h
          | ok more =>
              simp [h1, h2, ok_bind, error_bind, pure_eq_ok] at h
              subst h
              exact balanced_append (makeItem_balanced v ops1 h1)
                (makeListItem_balanced rest more h2)

theorem makeDictItem_balanced : ∀ (d : VDict) (ops : List Op),
    makeDictItem d = .ok ops → BalancedOps ops := by
  intro d ops h
  cases d with
  | nil =>
      simp [makeDictItem, pure_eq_ok] at h
      subst h
      exact balanced_nil
  | cons k v rest =>
      simp only [makeDictItem] at h
      cases hk : value2str k with
      | error e =>
          rw [hk] at h
          simp [error_bind] at h
      | ok ks =>
          rw [hk] at h
          simp only [ok_bind] at h
          cases v with
          | list l =>
              cases h1 : makeItem (.list l) with
              | error e => simp [h1, ok_bind, error_bind, pure_eq_ok] at h
              | ok inner =>
                  cases h2 : makeDictItem rest with
                  | error e => simp [h1, h2, ok_bind, error_bind, pure_eq_ok] at h
                  | ok more =>
                      simp [h1, h2, ok_bind, error_bind, pure_eq_ok] at h
                      subst h
                      rw [show inner ++ Op.popd :: more = (inner ++ [Op.popd]) ++ more by simp]
                      exact balanced_append
                        (balanced_wrap _ (makeItem_balanced (.list l) inner h1))
                        (makeDictItem_balanced rest more h2)
          | dict d2 =>
              cases h1 : makeItem (.dict d2) with
              | error e => simp [h1, ok_bind, error_bind, pure_eq_ok] at h
              | ok inner =>
                  cases h2 : makeDictItem rest with
                  | error e => simp [h1, h2, ok_bind, error_bind, pure_eq_ok] at h
                  | ok more =>
                      simp [h1, h2, ok_bind, error_bind, pure_eq_ok] at h
                      subst h
                      rw [show inner ++ Op.popd :: more = (inner ++ [Op.popd]) ++ more by simp]
                      exact balanced_append
                        (balanced_wrap _ (makeItem_balanced (.dict d2) inner h1))
                        (makeDictItem_balanced rest more h2)
          | null =>
              cases h2 : makeDictItem rest with
              | error e => simp [h2, ok_bind, error_bind, pure_eq_ok] at h
              | ok more =>
                  simp [h2, ok_bind, error_bind, pure_eq_ok] at h
                  subst h
                  exact balanced_append (balanced_wrap _ balanced_nil)
                    (makeDictItem_balanced rest more h2)
          | str s2 =>
              cases h2 : makeDictItem rest with
              | error e => simp [value2str, h2, ok_bind, error_bind, pure_eq_ok] at h
              | ok more =>
                  simp [value2str, h2, ok_bind, error_bind, pure_eq_ok] at h
                  subst h
                  rw [← List.singleton_append]
                  exact balanced_append (balanced_single rfl rfl)
                    (makeDictItem_balanced rest more h2)
          | int n2 =>
              cases h2 : makeDictItem rest with
              | error e => simp [value2str, h2, ok_bind, error_bind, pure_eq_ok] at h
              | ok more =>
                  simp [value2str, h2, ok_bind, error_bind, pure_eq_ok] at h
                  subst h
                  rw [← List.singleton_append]
                  exact balanced_append (balanced_single rfl rfl)
                    (makeDictItem_balanced rest more h2)
          | bool b2 =>
              cases h2 : makeDictItem rest with
              | error e => simp [value2str, h2, ok_bind, error_bind, pure_eq_ok] at h
              | ok more =>
                  simp [value2str, h2, ok_bind, error_bind, pure_eq_ok] at h
                  subst h
                  rw [← List.singleton_append]
                  exact balanced_append (balanced_single rfl rfl)
                    (makeDictItem_balanced rest more h2)
          | date y2 m2 d2 =>
              cases h2 : makeDictItem rest with
              | error e => simp [value2str, h2, ok_bind, error_bind, pure_eq_ok] at h
              | ok more =>
                  simp [value2str, h2, ok_bind, error_bind, pure_eq_ok] at h
                  subst h
                  rw [← List.singleton_append]
                  exact balanced_append (balanced_single rfl rfl)
                    (makeDictItem_balanced rest more h2)
          | datetime y2 m2 d2 hh2 mi2 ss2 =>
              simp [value2str, error_bind] at h
end

/-! ## Claim C1: the implicit round trip -/

/-- C1: for the implicit-shorthand dialect applied to the mapping
a maps to (b maps to hello, c maps to the sequence 1, 2),
materialization produces exactly a directory a containing a file b with
content hello and a directory c containing two empty files named 1 and
2: bare scalars in a sequence become empty files named after their
coerced value. -/
theorem implicit_round_trip :
    materializeImplicit treeC1 = .ok
      [.dir (.str "a")
        [.file (.str "b") (.str "hello"),
         .dir (.str "c")
           [.file (.str "1") (.str ""), .file (.str "2") (.str "")]]] := rfl

/-! ## Claim C2: pushd and popd balance -/

/-- C2 counterexample: materializing the bare scalar tree hello from
root /sandbox makes one pushd call and no popd call, and leaves the
directory stack holding the original working directory instead of
empty, so for this successful top-level materialization the number of
enter calls differs from the number of leave calls. -/
theorem filemaker_stack_counterexample :
    filemakerOps "/sandbox" (Value.str "hello") =
      .ok [Op.pushd (.str "/sandbox"), Op.makeFile (.str "hello") (.str "")] ∧
    countPushd [Op.pushd (.str "/sandbox"), Op.makeFile (.str "hello") (.str "")] = 1 ∧
    countPopd [Op.pushd (.str "/sandbox"), Op.makeFile (.str "hello") (.str "")] = 0 ∧
    runOpsCwd [Op.pushd (.str "/sandbox"), Op.makeFile (.str "hello") (.str "")]
      ("/home", []) = some ("/sandbox", ["/home"]) :=
  ⟨rfl, rfl, rfl, rfl⟩

/-- C2 (corrected): within the recursive walk the interpreter makes as
many pushd as popd calls and restores the working directory and the
directory stack exactly; but the constructor makes one extra
pushd(root) call with no matching popd, so over a whole successful
construction the pushd count exceeds the popd count by one and the
directory stack ends holding exactly the pre-construction working
directory rather than being empty. -/
theorem filemaker_root_push_unmatched (root : String) (fdef : Value)
    (wops : List Op) (cwd : String) (h : makeItem fdef = .ok wops) :
    countPushd wops = countPopd wops ∧
    runOpsCwd wops (cwd, []) = some (cwd, []) ∧
    filemakerOps root fdef = .ok (Op.pushd (.str root) :: wops) ∧
    countPushd (Op.pushd (.str root) :: wops) =
      countPopd (Op.pushd (.str root) :: wops) + 1 ∧
    runOpsCwd (Op.pushd (.str root) :: wops) (cwd, []) =
      some (resolve cwd (.str root), [cwd]) := by
  have hb := makeItem_balanced fdef wops h
  refine ⟨hb.1, hb.2 (cwd, []), ?_, ?_, ?_⟩
  · simp [filemakerOps, h, Except.map]
  · have h1 := hb.1
    unfold countPushd countPopd at h1 ⊢
    simp [List.filter_cons, isPushd, isPopd]
    omega
  · have hstep : runOpsCwd (Op.pushd (.str root) :: wops) (cwd, []) =
        runOpsCwd wops (resolve cwd (.str root), [cwd]) := rfl
    rw [hstep, hb.2]

/-- C2 witness: the corrected statement instantiated at the bare scalar
tree hello, root /sandbox, and initial working directory /home. -/
theorem filemaker_root_push_unmatched_witness :
    makeItem (Value.str "hello") = .ok [Op.makeFile (.str "hello") (.str "")] ∧
    (countPushd [Op.makeFile (.str "hello") (.str "")] =
       countPopd [Op.makeFile (.str "hello") (.str "")] ∧
     runOpsCwd [Op.makeFile (.str "hello") (.str "")] ("/home", []) =
       some ("/home", []) ∧
     filemakerOps "/sandbox" (Value.str "hello") =
       .ok (Op.pushd (.str "/sandbox") :: [Op.makeFile (.str "hello") (.str "")]) ∧
     countPushd (Op.pushd (.str "/sandbox") :: [Op.makeFile (.str "hello") (.str "")]) =
       countPopd (Op.pushd (.str "/sandbox") :: [Op.makeFile (.str "hello") (.str "")]) + 1 ∧
     runOpsCwd (Op.pushd (.str "/sandbox") :: [Op.makeFile (.str "hello") (.str "")])
       ("/home", []) = some (resolve "/home" (.str "/sandbox"), ["/home"])) :=
  ⟨rfl, filemaker_root_push_unmatched "/sandbox" (Value.str "hello")
    [Op.makeFile (.str "hello") (.str "")] "/home" rfl⟩

/-! ## Claim C3: the sandbox restores the working directory -/

/-- C3: for every run of the create_files scope — whatever the tree,
whether materialization raised, whether the body raised, whatever the
cleanup flag, and whatever working directory a failed materialization
left behind — the working directory after scope exit equals its value
from immediately before scope entry. -/
theorem create_files_restores_cwd (initCwd tmpdir failCwd : String)
    (partialEntries : List Entry) (fdef : Value) (bodyExc : Option Err)
    (cleanup : Bool) :
    (create_files initCwd tmpdir failCwd partialEntries fdef bodyExc
      cleanup).world.cwd = initCwd := by
  unfold create_files
  cases materializeImplicit fdef <;> cases bodyExc <;> cases cleanup <;> rfl

/-! ## Claim C4: sandbox cleanup -/

/-- C4: with cleanup set (the default) the temporary root no longer
exists after scope exit, and with cleanup unset it still exists and,
the materialization having succeeded, holds exactly the materialized
tree — on every body outcome. -/
theorem create_files_cleanup (initCwd tmpdir failCwd : String)
    (partialEntries : List Entry) (fdef : Value) (bodyExc : Option Err)
    (entries : List Entry) (h : materializeImplicit fdef = .ok entries) :
    (create_files initCwd tmpdir failCwd partialEntries fdef bodyExc
      true).world.tmp = none ∧
    (create_files initCwd tmpdir failCwd partialEntries fdef bodyExc
      false).world.tmp = some entries := by
  unfold create_files
  rw [h]
  cases bodyExc <;> exact ⟨rfl, rfl⟩

/-- C4 witness: the statement instantiated at the round-trip tree with
a normally returning body. -/
theorem create_files_cleanup_witness :
    materializeImplicit treeC1 = .ok
      [.dir (.str "a")
        [.file (.str "b") (.str "hello"),
         .dir (.str "c")
           [.file (.str "1") (.str ""), .file (.str "2") (.str "")]]] ∧
    ((create_files "/home" "/tmp/x" "/tmp/x" [] treeC1 none true).world.tmp = none ∧
     (create_files "/home" "/tmp/x" "/tmp/x" [] treeC1 none false).world.tmp = some
       [.dir (.str "a")
         [.file (.str "b") (.str "hello"),
          .dir (.str "c")
            [.file (.str "1") (.str ""), .file (.str "2") (.str "")]]]) :=
  ⟨rfl, create_files_cleanup "/home" "/tmp/x" "/tmp/x" [] treeC1 none _ rfl⟩

/-! ## Claim C5: dates and date-times in scalar coercion -/

/-- C5 counterexample: a date-time value is not reduced to its date
component; coercion of the date-time 2020-01-02 03:04:05 raises
UnknownType instead of producing the text 2020-01-02, because the exact
type check excludes the date-time subclass. -/
theorem datetime_coercion_counterexample :
    value2str (.datetime 2020 1 2 3 4 5) =
      .error (.unknownType (.datetime 2020 1 2 3 4 5) "datetime.datetime") ∧
    value2str (.datetime 2020 1 2 3 4 5) ≠ .ok "2020-01-02" :=
  ⟨rfl, fun hc => Except.noConfusion hc⟩

/-- C5 (corrected): scalar coercion maps an exact calendar date to its
ISO-8601 form YYYY-MM-DD, but a date-time value — being excluded by the
exact runtime type check, which its subclass type does not satisfy —
raises UnknownType identifying the value and its runtime type, rather
than being reduced to its date component. -/
theorem date_iso_datetime_raises :
    (∀ y m d, value2str (.date y m d) = .ok (isoDate y m d)) ∧
    (∀ y m d hh mi ss, value2str (.datetime y m d hh mi ss) =
      .error (.unknownType (.datetime y m d hh mi ss) "datetime.datetime")) :=
  ⟨fun _ _ _ => rfl, fun _ _ _ _ _ _ => rfl⟩

/-! ## Claim C6: unsupported scalar types -/

/-- C6 counterexample: a boolean leaf does not raise UnknownType — the
Python bool type is a numeric type, so coercion returns the text True,
and the walker then creates an empty file of that name. -/
theorem bool_coercion_counterexample :
    value2str (.bool true) = .ok "True" ∧
    makeItem (.bool true) = .ok [Op.makeFile (.str "True") (.str "")] :=
  ⟨rfl, rfl⟩

/-- C6 (corrected): for every leaf value whose runtime type is neither
a string, nor a number — booleans being numbers, since the Python bool
type subclasses int — nor exactly a calendar date, scalar coercion
raises UnknownType carrying the offending value and its runtime type
name; this is the single coercion used in both the name and the content
contexts. -/
theorem unsupported_type_raises (v : Value)
    (h1 : isBasestring v = false) (h2 : isNumber v = false)
    (h3 : isExactDate v = false) :
    value2str v = .error (.unknownType v (pyTypeName v)) := by
  cases v <;> simp_all [isBasestring, isNumber, isExactDate, value2str]

/-- C6 witness: the corrected statement instantiated at the null
value. -/
theorem unsupported_type_raises_witness :
    isBasestring Value.null = false ∧ isNumber Value.null = false ∧
    isExactDate Value.null = false ∧
    value2str Value.null = .error (.unknownType Value.null "NoneType") :=
  ⟨rfl, rfl, rfl, unsupported_type_raises Value.null rfl rfl rfl⟩

/-! ## Inversion helpers for Except computations -/

theorem bind_ok_inv {α β : Type} {x : Except Err α} {f : α → Except Err β} {b : β}
    (h : x >>= f = .ok b) : ∃ a, x = .ok a ∧ f a = .ok b := by
  cases x with
  | error e => rw [error_bind] at h; exact absurd h (by simp)
  | ok a => exact ⟨a, rfl, h⟩

theorem map_ok_inv {α β : Type} {g : α → β} {x : Except Err α} {b : β}
    (h : g <$> x = .ok b) : ∃ a, x = .ok a ∧ g a = b := by
  cases x with
  | error e => simp at h
  | ok a =>
      simp at h
      exact ⟨a, rfl, h⟩

theorem hasKey_false_lookup {d : VDict} {k : String} (h : hasKey d k = false) :
    lookupKey d k = none := by
  unfold hasKey at h
  cases hl : lookupKey d k with
  | none => rfl
  | some v => rw [hl] at h; simp at h

/-! ## Claim C7: missing discriminator under the explicit dialect -/

/-- C7: under the explicit-attributed dialect, every mapping node
containing neither a file key nor a directory key makes materialization
fail with the UnknownType error. -/
theorem explicit_missing_discriminator (env : MetaEnv) (d : VDict)
    (h1 : hasKey d "directory" = false) (h2 : hasKey d "file" = false) :
    exMakeItem env (.dict d) = .error .unknownStructure := by
  have l1 := hasKey_false_lookup h1
  have l2 := hasKey_false_lookup h2
  simp [exMakeItem, l1, l2]

/-- C7 witness: the statement instantiated at the mapping holding the
single binding x maps to y. -/
theorem explicit_missing_discriminator_witness :
    hasKey (VDict.cons (.str "x") (.str "y") .nil) "directory" = false ∧
    hasKey (VDict.cons (.str "x") (.str "y") .nil) "file" = false ∧
    exMakeItem envAllSuccess (.dict (VDict.cons (.str "x") (.str "y") .nil)) =
      .error .unknownStructure :=
  ⟨rfl, rfl,
    explicit_missing_discriminator envAllSuccess
      (VDict.cons (.str "x") (.str "y") .nil) rfl rfl⟩

/-! ## Claim C8: children on a file node -/

/-- If the key loop runs to completion over a node that has a children
key, then the emitted operations contain a pushd into the current entry
name: the walker does recurse into children whatever the entry kind. -/
theorem branch_loop_inv {B C : Except Err (List Op)} {ops : List Op}
    (h : (do
        let y ← B
        let more ← C
        pure (y ++ more)) = Except.ok ops) :
    ∃ y more, B = .ok y ∧ C = .ok more ∧ ops = y ++ more := by
  obtain ⟨y, hy, h⟩ := bind_ok_inv h
  obtain ⟨more, hmore, h⟩ := bind_ok_inv h
  rw [pure_eq_ok] at h
  injection h with h
  exact ⟨y, more, hy, hmore, h.symm⟩

theorem exKeyLoop_children_pushd : ∀ (env : MetaEnv) (cur : Value) (d : VDict)
    (ops : List Op), exKeyLoop env cur d = .ok ops →
    hasKey d "children" = true → Op.pushd cur ∈ ops := by
  intro env cur d ops h hk
  cases d with
  | nil => simp [hasKey, lookupKey] at hk
  | cons k v rest =>
      simp only [exKeyLoop] at h
      by_cases hc : k = Value.str "children"
      · rw [if_pos hc] at h
        obtain ⟨inner, hi, h⟩ := bind_ok_inv h
        obtain ⟨y, more, hy, hmore, hops⟩ := branch_loop_inv h
        rw [pure_eq_ok] at hy
        injection hy with hy
        subst hops
        subst hy
        simp
      · rw [if_neg hc] at h
        have hk2 : hasKey rest "children" = true := by
          simp [hasKey, lookupKey, hc] at hk
          simp [hasKey, hk]
        by_cases hm : k = Value.str "mode"
        · rw [if_pos hm] at h
          obtain ⟨y, more, hy, hmore, hops⟩ := branch_loop_inv h
          subst hops
          exact List.mem_append.mpr
            (Or.inr (exKeyLoop_children_pushd env cur rest more hmore hk2))
        · rw [if_neg hm] at h
          by_cases hu : k = Value.str "user"
          · rw [if_pos hu] at h
            obtain ⟨y, more, hy, hmore, hops⟩ := branch_loop_inv h
            subst hops
            exact List.mem_append.mpr
              (Or.inr (exKeyLoop_children_pushd env cur rest more hmore hk2))
          · rw [if_neg hu] at h
            by_cases hg : k = Value.str "group"
            · rw [if_pos hg] at h
              obtain ⟨y, more, hy, hmore, hops⟩ := branch_loop_inv h
              subst hops
              exact List.mem_append.mpr
                (Or.inr (exKeyLoop_children_pushd env cur rest more hmore hk2))
            · rw [if_neg hg] at h
              obtain ⟨y, more, hy, hmore, hops⟩ := branch_loop_inv h
              subst hops
              exact List.mem_append.mpr
                (Or.inr (exKeyLoop_children_pushd env cur rest more hmore hk2))

/-- C8 counterexample: for the file node with file f, content x and
children holding g, the explicit walker emits a pushd into the file
name f and recurses into the children, and against the filesystem model
the materialization fails (entering f fails because f is a file), so
children is neither ignored nor error-free. -/
theorem file_children_counterexample :
    exMakeItem envAllSuccess nodeC8 = .ok
      [Op.makeFile (.str "f") (.str "x"), Op.pushd (.str "f"),
       Op.makeFile (.str "g") (.str ""), Op.popd] ∧
    materializeExplicit envAllSuccess nodeC8 =
      .error (.osError "NotADirectoryError") :=
  ⟨rfl, rfl⟩

/-- C8 (corrected): under the explicit dialect, for a node taking the
file branch with a children key present, the file is created with its
content, but children is not ignored: the key loop runs for every node
kind, so the walker enters a directory named by the file value and
recurses into children — an attempt that fails against a real
filesystem, because that name denotes the just-created file. -/
theorem file_children_not_ignored (env : MetaEnv) (d : VDict) (f : Value)
    (tr : List Op) (h1 : lookupKey d "directory" = none)
    (h2 : lookupKey d "file" = some f) (h3 : hasKey d "children" = true)
    (h : exMakeItem env (.dict d) = .ok tr) :
    Op.makeFile f ((lookupKey d "content").getD (.str "")) ∈ tr ∧
    Op.pushd f ∈ tr := by
  simp only [exMakeItem, h1, h2] at h
  obtain ⟨rest, hrest, h⟩ := map_ok_inv h
  subst h
  refine ⟨List.mem_cons_self _ _, ?_⟩
  exact List.mem_cons_of_mem _ (exKeyLoop_children_pushd env f d rest hrest h3)

/-- C8 witness: the corrected statement instantiated at the node with
file f, content x and children holding g. -/
theorem file_children_not_ignored_witness :
    lookupKey dC8 "directory" = none ∧
    lookupKey dC8 "file" = some (.str "f") ∧
    hasKey dC8 "children" = true ∧
    exMakeItem envAllSuccess (.dict dC8) = .ok
      [Op.makeFile (.str "f") (.str "x"), Op.pushd (.str "f"),
       Op.makeFile (.str "g") (.str ""), Op.popd] ∧
    (Op.makeFile (.str "f") ((lookupKey dC8 "content").getD (.str "")) ∈
       [Op.makeFile (.str "f") (.str "x"), Op.pushd (.str "f"),
        Op.makeFile (.str "g") (.str ""), Op.popd] ∧
     Op.pushd (.str "f") ∈
       [Op.makeFile (.str "f") (.str "x"), Op.pushd (.str "f"),
        Op.makeFile (.str "g") (.str ""), Op.popd]) :=
  ⟨rfl, rfl, rfl, rfl,
    file_children_not_ignored envAllSuccess dC8 (.str "f") _ rfl rfl rfl rfl⟩

/-! ## Claim C10: a node carrying both discriminators -/

theorem lookupKey_erase : ∀ (d : VDict) (key : String), key ≠ "file" →
    key ≠ "content" →
    lookupKey (eraseFileContent d) key = lookupKey d key := by
  intro d key h1 h2
  cases d with
  | nil => rfl
  | cons k v rest =>
      by_cases hf : k = Value.str "file" ∨ k = Value.str "content"
      · have he : eraseFileContent (.cons k v rest) = eraseFileContent rest := by
          simp [eraseFileContent, hf]
        have hne : k ≠ Value.str key := by
          intro hh
          rcases hf with hf | hf
          · rw [hf] at hh
            injection hh with hh
            exact h1 hh.symm
          · rw [hf] at hh
            injection hh with hh
            exact h2 hh.symm
        rw [he, lookupKey_erase rest key h1 h2]
        simp [lookupKey, hne]
      · push_neg at hf
        obtain ⟨hf1, hf2⟩ := hf
        have he : eraseFileContent (.cons k v rest) =
            .cons k v (eraseFileContent rest) := by
          simp [eraseFileContent, hf1, hf2]
        rw [he]
        by_cases hk : k = Value.str key
        · simp [lookupKey, hk]
        · simp [lookupKey, hk, lookupKey_erase rest key h1 h2]

theorem exKeyLoop_erase : ∀ (env : MetaEnv) (cur : Value) (d : VDict),
    exKeyLoop env cur (eraseFileContent d) = exKeyLoop env cur d := by
  intro env cur d
  cases d with
  | nil => rfl
  | cons k v rest =>
      by_cases hf : k = Value.str "file" ∨ k = Value.str "content"
      · have he : eraseFileContent (.cons k v rest) = eraseFileContent rest := by
          simp [eraseFileContent, hf]
        have hnc : ¬ k = Value.str "children" := by
          rcases hf with hf | hf <;> rw [hf] <;> decide
        have hnm : ¬ k = Value.str "mode" := by
          rcases hf with hf | hf <;> rw [hf] <;> decide
        have hnu : ¬ k = Value.str "user" := by
          rcases hf with hf | hf <;> rw [hf] <;> decide
        have hng : ¬ k = Value.str "group" := by
          rcases hf with hf | hf <;> rw [hf] <;> decide
        rw [he, exKeyLoop_erase env cur rest]
        conv_rhs => rw [exKeyLoop]
        rw [if_neg hnc, if_neg hnm, if_neg hnu, if_neg hng]
        cases hC : exKeyLoop env cur rest <;>
          simp [hC, ok_bind, error_bind, pure_eq_ok]
      · push_neg at hf
        obtain ⟨hf1, hf2⟩ := hf
        have he : eraseFileContent (.cons k v rest) =
            .cons k v (eraseFileContent rest) := by
          simp [eraseFileContent, hf1, hf2]
        rw [he]
        simp only [exKeyLoop, exKeyLoop_erase env cur rest]

/-- C10: under the explicit dialect, for every node mapping containing
both a directory key and a file key, the presence of the file and
content keys does not change the behaviour — the walk is identical to
the walk of the node with those keys removed, because the directory
branch is preferred and the file and content keys match no branch of
the key loop — and on success the emitted trace begins with the
creation of the directory named by the directory value. -/
theorem directory_wins_over_file (env : MetaEnv) (d : VDict) (dirName : Value)
    (h1 : lookupKey d "directory" = some dirName) (h2 : hasKey d "file" = true) :
    exMakeItem env (.dict d) = exMakeItem env (.dict (eraseFileContent d)) ∧
    (∀ tr, exMakeItem env (.dict d) = .ok tr →
      tr.head? = some (Op.mkdir dirName)) := by
  have hdir : lookupKey (eraseFileContent d) "directory" = some dirName := by
    rw [lookupKey_erase d "directory" (by decide) (by decide)]
    exact h1
  constructor
  · simp only [exMakeItem, h1, hdir, exKeyLoop_erase]
  · intro tr h
    simp only [exMakeItem, h1] at h
    obtain ⟨rest, hrest, h⟩ := bind_ok_inv h
    rw [pure_eq_ok] at h
    injection h with h
    rw [← h]
    rfl

/-- C10 witness: the statement instantiated at the node holding
directory d, file f and content x, under the all-success metadata
environment. -/
theorem directory_wins_over_file_witness :
    lookupKey dC10 "directory" = some (.str "d") ∧
    hasKey dC10 "file" = true ∧
    exMakeItem envAllSuccess (.dict dC10) =
      exMakeItem envAllSuccess (.dict (eraseFileContent dC10)) ∧
    exMakeItem envAllSuccess (.dict dC10) = .ok [Op.mkdir (.str "d")] ∧
    [Op.mkdir (Value.str "d")].head? = some (Op.mkdir (.str "d")) :=
  ⟨rfl, rfl,
    (directory_wins_over_file envAllSuccess dC10 (.str "d") rfl rfl).1,
    rfl,
    (directory_wins_over_file envAllSuccess dC10 (.str "d") rfl rfl).2
      [Op.mkdir (.str "d")] rfl⟩

/-! ## Claim C9: permission failures on metadata application -/

theorem creationOps_append (a b : List Op) :
    creationOps (a ++ b) = creationOps a ++ creationOps b := by
  simp [creationOps, List.filter_append]

theorem make_item_mode_creations (env : MetaEnv) (h : NonRaising env)
    (n m : Value) :
    ∃ w, make_item_mode env n m = .ok w ∧ creationOps w = [] := by
  unfold make_item_mode
  cases he : env MetaKey.mode n m with
  | success => exact ⟨_, rfl, rfl⟩
  | permissionError => exact ⟨_, rfl, rfl⟩
  | raises exc => exact absurd he (h MetaKey.mode n m exc)

theorem make_item_user_creations (env : MetaEnv) (h : NonRaising env)
    (n u : Value) :
    ∃ w, make_item_user env n u = .ok w ∧ creationOps w = [] := by
  unfold make_item_user
  cases he : env MetaKey.user n u with
  | success => exact ⟨_, rfl, rfl⟩
  | permissionError => exact ⟨_, rfl, rfl⟩
  | raises exc => exact absurd he (h MetaKey.user n u exc)

theorem make_item_group_creations (env : MetaEnv) (h : NonRaising env)
    (n g : Value) :
    ∃ w, make_item_group env n g = .ok w ∧ creationOps w = [] := by
  unfold make_item_group
  cases he : env MetaKey.group n g with
  | success => exact ⟨_, rfl, rfl⟩
  | permissionError => exact ⟨_, rfl, rfl⟩
  | raises exc => exact absurd he (h MetaKey.group n g exc)

theorem map_creations_error {X₁ X₂ : Except Err (List Op)}
    (h : X₁.map creationOps = X₂.map creationOps) {e : Err}
    (h1 : X₁ = .error e) : X₂ = .error e := by
  rw [h1] at h
  cases hx : X₂ with
  | error e2 =>
      rw [hx] at h
      simp [Except.map] at h
      rw [h]
  | ok w =>
      rw [hx] at h
      simp [Except.map] at h

theorem map_creations_ok {X₁ X₂ : Except Err (List Op)}
    (h : X₁.map creationOps = X₂.map creationOps) {w : List Op}
    (h1 : X₁ = .ok w) : ∃ w2, X₂ = .ok w2 ∧ creationOps w = creationOps w2 := by
  rw [h1] at h
  cases hx : X₂ with
  | error e2 =>
      rw [hx] at h
      simp [Except.map] at h
  | ok w2 =>
      rw [hx] at h
      simp [Except.map] at h
      exact ⟨w2, rfl, h⟩

mutual
theorem exMakeItem_creations : ∀ (v : Value) (env₁ env₂ : MetaEnv),
    NonRaising env₁ → NonRaising env₂ →
    (exMakeItem env₁ v).map creationOps = (exMakeItem env₂ v).map creationOps := by
  intro v env₁ env₂ h₁ h₂
  cases v with
  | str s => rfl
  | int n => rfl
  | bool b => rfl
  | date y m d => rfl
  | datetime y m d hh mi ss => rfl
  | null => rfl
  | list l => exact exMakeListItem_creations l env₁ env₂ h₁ h₂
  | dict d =>
      simp only [exMakeItem]
      cases hdir : lookupKey d "directory" with
      | some cur =>
          have IH := exKeyLoop_creations d cur env₁ env₂ h₁ h₂
          cases hC : exKeyLoop env₁ cur d with
          | error e =>
              have hC2 := map_creations_error IH hC
              simp [hC, hC2, ok_bind, error_bind, pure_eq_ok]
          | ok m1 =>
              obtain ⟨m2, hC2, hm⟩ := map_creations_ok IH hC
              simp only [creationOps] at hm
              simp [hC, hC2, ok_bind, error_bind, pure_eq_ok, Except.map,
                creationOps, List.filter_cons, isCreation, hm]
      | none =>
          cases hfile : lookupKey d "file" with
          | none => rfl
          | some cur =>
              have IH := exKeyLoop_creations d cur env₁ env₂ h₁ h₂
              cases hC : exKeyLoop env₁ cur d with
              | error e =>
                  have hC2 := map_creations_error IH hC
                  simp [hC, hC2, ok_bind, error_bind, pure_eq_ok]
              | ok m1 =>
                  obtain ⟨m2, hC2, hm⟩ := map_creations_ok IH hC
                  simp only [creationOps] at hm
                  simp [hC, hC2, ok_bind, error_bind, pure_eq_ok, Except.map,
                    creationOps, List.filter_cons, isCreation, hm]

theorem exMakeListItem_creations : ∀ (l : VList) (env₁ env₂ : MetaEnv),
    NonRaising env₁ → NonRaising env₂ →
    (exMakeListItem env₁ l).map creationOps =
      (exMakeListItem env₂ l).map creationOps := by
  intro l env₁ env₂ h₁ h₂
  cases l with
  | nil => rfl
  | cons v rest =>
      have IH := exMakeItem_creations v env₁ env₂ h₁ h₂
      have IHr := exMakeListItem_creations rest env₁ env₂ h₁ h₂
      simp only [exMakeListItem]
      cases hX : exMakeItem env₁ v with
      | error e =>
          have hX2 := map_creations_error IH hX
          simp [hX, hX2, ok_bind, error_bind, pure_eq_ok]
      | ok w1 =>
          obtain ⟨w2, hX2, hw⟩ := map_creations_ok IH hX
          cases hC : exMakeListItem env₁ rest with
          | error e =>
              have hC2 := map_creations_error IHr hC
              simp [hX, hX2, hC, hC2, ok_bind, error_bind, pure_eq_ok]
          | ok m1 =>
              obtain ⟨m2, hC2, hm⟩ := map_creations_ok IHr hC
              simp [hX, hX2, hC, hC2, ok_bind, error_bind, pure_eq_ok,
                Except.map, creationOps_append, hw, hm]

theorem exKeyLoop_creations : ∀ (d : VDict) (cur : Value) (env₁ env₂ : MetaEnv),
    NonRaising env₁ → NonRaising env₂ →
    (exKeyLoop env₁ cur d).map creationOps =
      (exKeyLoop env₂ cur d).map creationOps := by
  intro d cur env₁ env₂ h₁ h₂
  cases d with
  | nil => rfl
  | cons k v rest =>
      have IHr := exKeyLoop_creations rest cur env₁ env₂ h₁ h₂
      simp only [exKeyLoop]
      by_cases hc : k = Value.str "children"
      · rw [if_pos hc, if_pos hc]
        have IH := exMakeItem_creations v env₁ env₂ h₁ h₂
        cases hX : exMakeItem env₁ v with
        | error e =>
            have hX2 := map_creations_error IH hX
            simp [hX, hX2, ok_bind, error_bind, pure_eq_ok]
        | ok w1 =>
            obtain ⟨w2, hX2, hw⟩ := map_creations_ok IH hX
            cases hC : exKeyLoop env₁ cur rest with
            | error e =>
                have hC2 := map_creations_error IHr hC
                simp [hX, hX2, hC, hC2, ok_bind, error_bind, pure_eq_ok]
            | ok m1 =>
                obtain ⟨m2, hC2, hm⟩ := map_creations_ok IHr hC
                simp only [creationOps] at hw hm
                simp [hX, hX2, hC, hC2, ok_bind, error_bind, pure_eq_ok,
                  Except.map, creationOps, List.filter_append, List.filter_cons,
                  isCreation, hw, hm]
      · rw [if_neg hc, if_neg hc]
        by_cases hmo : k = Value.str "mode"
        · rw [if_pos hmo, if_pos hmo]
          obtain ⟨w1, hw1, hcw1⟩ := make_item_mode_creations env₁ h₁ cur v
          obtain ⟨w2, hw2, hcw2⟩ := make_item_mode_creations env₂ h₂ cur v
          cases hC : exKeyLoop env₁ cur rest with
          | error e =>
              have hC2 := map_creations_error IHr hC
              simp [hw1, hw2, hC, hC2, ok_bind, error_bind, pure_eq_ok]
          | ok m1 =>
              obtain ⟨m2, hC2, hm⟩ := map_creations_ok IHr hC
              simp [hw1, hw2, hC, hC2, ok_bind, error_bind, pure_eq_ok,
                Except.map, creationOps_append, hcw1, hcw2, hm]
        · rw [if_neg hmo, if_neg hmo]
          by_cases hu : k = Value.str "user"
          · rw [if_pos hu, if_pos hu]
            obtain ⟨w1, hw1, hcw1⟩ := make_item_user_creations env₁ h₁ cur v
            obtain ⟨w2, hw2, hcw2⟩ := make_item_user_creations env₂ h₂ cur v
            cases hC : exKeyLoop env₁ cur rest with
            | error e =>
                have hC2 := map_creations_error IHr hC
                simp [hw1, hw2, hC, hC2, ok_bind, error_bind, pure_eq_ok]
            | ok m1 =>
                obtain ⟨m2, hC2, hm⟩ := map_creations_ok IHr hC
                simp [hw1, hw2, hC, hC2, ok_bind, error_bind, pure_eq_ok,
                  Except.map, creationOps_append, hcw1, hcw2, hm]
          · rw [if_neg hu, if_neg hu]
            by_cases hg : k = Value.str "group"
            · rw [if_pos hg, if_pos hg]
              obtain ⟨w1, hw1, hcw1⟩ := make_item_group_creations env₁ h₁ cur v
              obtain ⟨w2, hw2, hcw2⟩ := make_item_group_creations env₂ h₂ cur v
              cases hC : exKeyLoop env₁ cur rest with
              | error e =>
                  have hC2 := map_creations_error IHr hC
                  simp [hw1, hw2, hC, hC2, ok_bind, error_bind, pure_eq_ok]
              | ok m1 =>
                  obtain ⟨m2, hC2, hm⟩ := map_creations_ok IHr hC
                  simp [hw1, hw2, hC, hC2, ok_bind, error_bind, pure_eq_ok,
                    Except.map, creationOps_append, hcw1, hcw2, hm]
            · rw [if_neg hg, if_neg hg]
              cases hC : exKeyLoop env₁ cur rest with
              | error e =>
                  have hC2 := map_creations_error IHr hC
                  simp [hC, hC2, ok_bind, error_bind, pure_eq_ok]
              | ok m1 =>
                  obtain ⟨m2, hC2, hm⟩ := map_creations_ok IHr hC
                  simp [hC, hC2, ok_bind, error_bind, pure_eq_ok, Except.map, hm]
end

/-- C9: under the explicit dialect, when every metadata call failure is
a permission failure (no other exception arises), the walk is never
aborted by metadata application: any two such environments produce the
same creation operations — every entry is still created with its name
and content intact, materialization continues past the failures, and
success or failure of the whole walk is unchanged; moreover each
handler turns a permission failure into exactly an ok result carrying
the printed warning, never a raised error. -/
theorem metadata_permission_warns (env₁ env₂ : MetaEnv)
    (h₁ : NonRaising env₁) (h₂ : NonRaising env₂) :
    (∀ v, (exMakeItem env₁ v).map creationOps =
      (exMakeItem env₂ v).map creationOps) ∧
    (∀ n m, env₁ MetaKey.mode n m = .permissionError →
      make_item_mode env₁ n m = .ok [Op.warn (modeWarning m n)]) ∧
    (∀ n u, env₁ MetaKey.user n u = .permissionError →
      make_item_user env₁ n u = .ok [Op.warn (userWarning u n)]) ∧
    (∀ n g, env₁ MetaKey.group n g = .permissionError →
      make_item_group env₁ n g = .ok [Op.warn (groupWarning g n)]) := by
  refine ⟨fun v => exMakeItem_creations v env₁ env₂ h₁ h₂, ?_, ?_, ?_⟩
  · intro n m hx
    simp [make_item_mode, hx]
  · intro n u hx
    simp [make_item_user, hx]
  · intro n g hx
    simp [make_item_group, hx]

/-- C9 witness: the statement instantiated at the all-permission-denied
and all-success environments and the file node carrying a mode key. -/
theorem metadata_permission_warns_witness :
    NonRaising envAllPerm ∧ NonRaising envAllSuccess ∧
    (exMakeItem envAllPerm nodeC9).map creationOps =
      (exMakeItem envAllSuccess nodeC9).map creationOps ∧
    make_item_mode envAllPerm (.str "f") (.int 420) =
      .ok [Op.warn (modeWarning (.int 420) (.str "f"))] := by
  have hP : NonRaising envAllPerm := fun _ _ _ _ hx => MetaOutcome.noConfusion hx
  have hS : NonRaising envAllSuccess := fun _ _ _ _ hx => MetaOutcome.noConfusion hx
  have main := metadata_permission_warns envAllPerm envAllSuccess hP hS
  exact ⟨hP, hS, main.1 nodeC9, main.2.1 (.str "f") (.int 420) rfl⟩

end Yamldirs
